import Mathlib

/-!
Shallow embedding of the visual-control-system ROI drift detector.

This file embeds, in Lean 4, the algorithmic core of the `DetectionEngine`
class of the repository (drawing-mode variant, `part_003`, with the near
identical legacy variant in `part_004`): ROI extraction, Gaussian blur,
contour tracing, drift comparison, detection history and statistics, and
the `analyzeFrame` error boundary.

Modelling conventions:
* JavaScript numbers are embedded as `ℚ` where the code only adds,
  multiplies, compares, floors and rounds (so everything stays
  executable), and as `ℝ` where the code calls `Math.sqrt`, `Math.exp`,
  `Math.atan2` or divides by accumulated real weights.
* `Math.floor` is `Int.floor`, `Math.round` is Mathlib's `round`
  (`round x = ⌊x + 1/2⌋`, which is exactly JS `Math.round` semantics).
* `Uint8ClampedArray` stores are modelled by `u8clamp`: clamp to
  `[0, 255]` and round half to even, as the Web IDL conversion does.
* Pixel buffers are `List ℕ` in RGBA interleaved layout; out-of-range
  reads use `List.getD _ 0` (a typed-array read that the code only
  performs after an explicit bounds check, or where a transparent-black
  canvas background makes the default 0 the actual browser value).
* Mutation of `this.detectionHistory` and of the `visited` array is
  modelled by explicit state passing.
* `Math.random()` draws are passed in as explicit `ℚ` parameters.
-/

/-- A rectangle `{x, y, width, height}` as drawn by the operator
(coordinates come from mouse events and may be fractional). -/
structure Rect where
  x : ℚ
  y : ℚ
  width : ℚ
  height : ℚ
deriving DecidableEq

/-- An `ImageData`-like pixel buffer: RGBA interleaved bytes. -/
structure ImageData where
  width : ℕ
  height : ℕ
  data : List ℕ
deriving DecidableEq

/-- A captured frame: metadata dimensions plus an optional pixel buffer
(`frameData.imageData` may be absent, which `extractROI` checks). -/
structure Frame where
  width : ℕ
  height : ℕ
  imageData : Option ImageData
deriving DecidableEq

/-- The scaled-and-clamped rectangle produced inside `extractROI`
(integer pixel coordinates after `Math.floor` and clamping). -/
structure ScaledRect where
  x : ℤ
  y : ℤ
  width : ℤ
  height : ℤ
deriving DecidableEq

/-- The ROI data returned by `extractROI`: the cropped pixels plus the
clamped source rectangle (`originalRect`). -/
structure ROIData where
  imageData : ImageData
  width : ℕ
  height : ℕ
  originalRect : ScaledRect
deriving DecidableEq

/-- Read one byte of an RGBA buffer; absent entries read as 0
(the cropped canvas is transparent black outside the drawn image). -/
def pixByte (data : List ℕ) (i : ℕ) : ℕ := data.getD i 0

/-- `DetectionEngine.extractROI(frameData, rect)` (part_003 lines
716-768).  Scales the rectangle by `frame.width / imageData.width`
(resp. height), floors, clamps `x`/`y` into `[0, width-1]`/`[0, height-1]`,
truncates `width`/`height` to the frame edge, and crops.  The browser
canvas operations (`canvas.width = w`, `getImageData`) throw on a
non-positive region size; the surrounding `try/catch` turns that into
`null`, which we model by returning `none`. -/
def extractROI (frame : Frame) (rect : Rect) : Option ROIData :=
  match frame.imageData with
  | none => none
  | some img =>
    let scaleX : ℚ := (frame.width : ℚ) / (img.width : ℚ)
    let scaleY : ℚ := (frame.height : ℚ) / (img.height : ℚ)
    let sx : ℤ := max 0 (min ⌊rect.x * scaleX⌋ ((frame.width : ℤ) - 1))
    let sy : ℤ := max 0 (min ⌊rect.y * scaleY⌋ ((frame.height : ℤ) - 1))
    let sw : ℤ := min ⌊rect.width * scaleX⌋ ((frame.width : ℤ) - sx)
    let sh : ℤ := min ⌊rect.height * scaleY⌋ ((frame.height : ℤ) - sy)
    if sw ≤ 0 ∨ sh ≤ 0 then none
    else
      some
        { imageData :=
            { width := sw.toNat
              height := sh.toNat
              data :=
                List.ofFn (n := sh.toNat * sw.toNat * 4) fun i =>
                  let p := (i : ℕ) / 4
                  let c := (i : ℕ) % 4
                  let yy := p / sw.toNat
                  let xx := p % sw.toNat
                  pixByte img.data
                    ((((sy.toNat + yy) * img.width + (sx.toNat + xx)) * 4 + c)) }
          width := sw.toNat
          height := sh.toNat
          originalRect := ⟨sx, sy, sw, sh⟩ }

/-- `DetectionEngine.createGaussianKernel(radius)` (part_003 lines
1146-1164), as the weight function `(y, x) ↦ kernel[y][x]` on the
`(2·radius+1)²` window. -/
noncomputable def createGaussianKernel (radius : ℕ) (y x : ℕ) : ℝ :=
  let sigma : ℝ := (radius : ℝ) / 3
  let sigma2 : ℝ := sigma * sigma
  let norm : ℝ := 1 / (2 * Real.pi * sigma2)
  let dx : ℝ := (x : ℝ) - (radius : ℝ)
  let dy : ℝ := (y : ℝ) - (radius : ℝ)
  norm * Real.exp (-(dx * dx + dy * dy) / (2 * sigma2))

/-- Round half to even (the IEEE rounding used when a JS number is
stored into a `Uint8ClampedArray`). -/
noncomputable def roundHalfEven (v : ℝ) : ℤ :=
  if Int.fract v = 1 / 2 then 2 * round (v / 2) else round v

/-- A `Uint8ClampedArray` store: clamp into `[0, 255]`, rounding half to
even. -/
noncomputable def u8clamp (v : ℝ) : ℕ :=
  if v ≤ 0 then 0 else if 255 ≤ v then 255 else (roundHalfEven v).toNat

/-- The accumulated `sum / weightSum` that `applyGaussianBlur` computes
for one interior pixel `(x, y)` (part_003 lines 1114-1130); only invoked
with `half ≤ x` and `half ≤ y`, so the `ℕ` subtractions are exact. -/
noncomputable def blurInterior (img : ImageData) (radius : ℕ) (x y : ℕ) : ℝ :=
  let size := 2 * radius + 1
  let half := size / 2
  let sum := ∑ ky ∈ Finset.range size, ∑ kx ∈ Finset.range size,
    (pixByte img.data (((y + ky - half) * img.width + (x + kx - half)) * 4) : ℝ) *
      createGaussianKernel radius ky kx
  let weightSum := ∑ ky ∈ Finset.range size, ∑ kx ∈ Finset.range size,
    createGaussianKernel radius ky kx
  sum / weightSum

/-- `DetectionEngine.applyGaussianBlur(imageData, radius)` (part_003
lines 1102-1139).  The output buffer is allocated zero-filled
(`new Uint8ClampedArray(data.length)`) and the loops only write the
pixels with `half ≤ x < width − half` and `half ≤ y < height − half`:
every other output byte keeps its initial value 0.  Channels 0-2 of a
written pixel receive the clamped convolution value, channel 3 copies
the input alpha. -/
noncomputable def applyGaussianBlur (img : ImageData) (radius : ℕ) : ImageData :=
  let size := 2 * radius + 1
  let half := size / 2
  { width := img.width
    height := img.height
    data := List.ofFn (n := img.data.length) fun i =>
      let p := (i : ℕ) / 4
      let c := (i : ℕ) % 4
      let x := p % img.width
      let y := p / img.width
      if half ≤ x ∧ x < img.width - half ∧ half ≤ y ∧ y < img.height - half then
        if c = 3 then pixByte img.data (i : ℕ)
        else u8clamp (blurInterior img radius x y)
      else 0 }

/-- The 8-connected neighbour offsets of `traceContour`, in source
order (part_003 line 1247). -/
def directions : List (ℤ × ℤ) :=
  [(-1, -1), (-1, 0), (-1, 1), (0, -1), (0, 1), (1, -1), (1, 0), (1, 1)]

/-- The `while` loop of `DetectionEngine.traceContour` (part_003 lines
1244-1268), with an explicit fuel counter for the number of loop
iterations (theorem `traceContour_terminates_within_bound` shows the
default fuel of `traceContour` always suffices, i.e. the loop
terminates).  The stack is a list with its head as the top, so the
eight `stack.push` calls of one iteration prepend `directions` in
reverse.  The mutated `visited` array is threaded through and returned
alongside the contour. -/
def traceContourFuel (data : List ℕ) (width height : ℤ) :
    ℕ → List (ℤ × ℤ) → List Bool → List (ℤ × ℤ) → List (ℤ × ℤ) × List Bool
  | 0, _, visited, contour => (contour, visited)
  | _ + 1, [], visited, contour => (contour, visited)
  | fuel + 1, (x, y) :: rest, visited, contour =>
    if 1000 ≤ contour.length then (contour, visited)
    else
      let idx := y * width + x
      if x < 0 ∨ width ≤ x ∨ y < 0 ∨ height ≤ y ∨ visited.getD idx.toNat false then
        traceContourFuel data width height fuel rest visited contour
      else if 128 < pixByte data (idx.toNat * 4) then
        traceContourFuel data width height fuel
          ((directions.reverse.map fun d => (x + d.1, y + d.2)) ++ rest)
          (visited.set idx.toNat true)
          (contour ++ [(x, y)])
      else
        traceContourFuel data width height fuel rest visited contour

/-- `DetectionEngine.traceContour(data, width, height, startX, startY,
visited)`: run the traversal loop from the starting pixel.  The fuel
`9 * visited.length + 1` dominates the loop measure
`9 · #unvisited + |stack|` (each iteration pops one entry and pushes
eight only when it newly marks a pixel visited), so the traversal always
finishes within it. -/
def traceContour (data : List ℕ) (width height : ℤ) (startX startY : ℤ)
    (visited : List Bool) : List (ℤ × ℤ) × List Bool :=
  traceContourFuel data width height (9 * visited.length + 1)
    [(startX, startY)] visited []

/-- The body of the pixel scan of `findContours` (part_003 lines
1219-1229) for one pixel `(x, y)`: seed a trace at every unvisited
strong-edge pixel and keep the traced region only when it has more than
20 points.  State: the shared `visited` array and the contours
collected so far. -/
def findContoursStep (data : List ℕ) (width height : ℕ)
    (st : List Bool × List (List (ℤ × ℤ))) (p : ℕ × ℕ) :
    List Bool × List (List (ℤ × ℤ)) :=
  let idx := p.2 * width + p.1
  if ¬ st.1.getD idx false ∧ 128 < pixByte data (idx * 4) then
    let traced := traceContour data width height p.1 p.2 st.1
    (traced.2, if 20 < traced.1.length then st.2 ++ [traced.1] else st.2)
  else st

/-- Scan order of the nested loops of `findContours`: `y` outer, `x`
inner. -/
def pixelScanOrder (width height : ℕ) : List (ℕ × ℕ) :=
  (List.range height).flatMap fun y => (List.range width).map fun x => (x, y)

/-- `DetectionEngine.findContours(edgeData)` (part_003 lines 1214-1232). -/
def findContours (edge : ImageData) : List (List (ℤ × ℤ)) :=
  ((pixelScanOrder edge.width edge.height).foldl
      (findContoursStep edge.data edge.width edge.height)
      (List.replicate (edge.width * edge.height) false, [])).2

/-- Specification-side companion of `findContoursStep` that keeps every
traced region, with no length filter. -/
def findContoursAllStep (data : List ℕ) (width height : ℕ)
    (st : List Bool × List (List (ℤ × ℤ))) (p : ℕ × ℕ) :
    List Bool × List (List (ℤ × ℤ)) :=
  let idx := p.2 * width + p.1
  if ¬ st.1.getD idx false ∧ 128 < pixByte data (idx * 4) then
    let traced := traceContour data width height p.1 p.2 st.1
    (traced.2, st.2 ++ [traced.1])
  else st

/-- Specification-side definition: the list of all regions traced by
the `findContours` scan, before any length filtering.  Comparing
`findContours` against `findContoursUnfiltered` settles which traced
regions are kept and which are discarded. -/
def findContoursUnfiltered (edge : ImageData) : List (List (ℤ × ℤ)) :=
  ((pixelScanOrder edge.width edge.height).foldl
      (findContoursAllStep edge.data edge.width edge.height)
      (List.replicate (edge.width * edge.height) false, [])).2

/-- The per-axis detail block of a detection result (the stored offsets
are `Math.round`ed, hence integers). -/
structure Details where
  positionOffset : ℤ
  rotationOffset : ℤ
  positionOk : Bool
  rotationOk : Bool

/-- `DetectionResult` as produced by the engine.  The early-return and
catch results of `analyzeFrame` carry no `details` field, hence the
`Option`. -/
structure DetectionResult where
  hasAlert : Bool
  message : String
  box : Option Rect
  confidence : ℝ
  details : Option Details

/-- Reference features, as built by `extractFeaturesFromAreas` /
`extractFeatures` (only `rotation` is read by the comparator). -/
structure RefFeatures where
  centerX : ℝ
  centerY : ℝ
  rotation : ℝ
  area : ℝ

/-- The feature summary produced by `analyzeContours`
(`{hasBox, rotation, position:{x,y}, area, confidence}`; the bounding
box itself is not read by the comparator). -/
structure BoxFeatures where
  hasBox : Bool
  rotation : ℝ
  posX : ℝ
  posY : ℝ
  area : ℝ
  confidence : ℝ

/-- The result of `analyzeROI` as consumed by `compareWithReference`
(the raw edge image is not read by the comparator). -/
structure Analysis where
  features : Option BoxFeatures
  contours : ℕ

/-- `this.settings` of the detection engine. -/
structure Settings where
  rotationSensitivity : ℝ
  positionSensitivity : ℝ
  detectionThreshold : ℝ
  minContourArea : ℝ
  maxContourArea : ℝ

/-- The `if (!analysis.features || !analysis.features.hasBox)` branch of
`compareWithReference` (part_003 lines 931-945): a simulated detection
that alerts with 5% probability (`rand1` is the `Math.random()` draw for
`shouldAlert`, `rand2` the one for the fabricated position offset). -/
def noBoxSimulatedResult (keyPointRect : Rect) (rand1 rand2 : ℚ) : DetectionResult :=
  if rand1 < 0.05 then
    { hasAlert := true
      message := "ไม่พบกล่องในตำแหน่งที่กำหนด"
      box := some keyPointRect
      confidence := 30
      details := some ⟨⌊rand2 * 50 + 20⌋, 0, false, true⟩ }
  else
    { hasAlert := false
      message := "กล่องอยู่ในตำแหน่งที่ถูกต้อง"
      box := some keyPointRect
      confidence := 100
      details := some ⟨0, 0, true, true⟩ }

open Classical in
/-- `DetectionEngine.compareWithReference(analysis)` (part_003 lines
902-987).  `this.referenceFeatures`, `this.keyPointRect` and
`this.settings` are passed explicitly; the two `Math.random()` draws of
the no-box branch are the parameters `rand1` (the 5%-chance alert draw)
and `rand2` (the fake position offset draw).  `referenceFeatures.rotation
|| 0` is the identity on our total `ℝ` field and is modelled as such. -/
noncomputable def compareWithReference (referenceFeatures : Option RefFeatures)
    (keyPointRect : Rect) (settings : Settings) (analysis : Analysis)
    (rand1 rand2 : ℚ) : DetectionResult :=
  match referenceFeatures with
  | none =>
      { hasAlert := false
        message := "ไม่มีข้อมูลอ้างอิง"
        box := some keyPointRect
        confidence := 0
        details := some ⟨0, 0, true, true⟩ }
  | some rf =>
    match analysis.features with
    | none => noBoxSimulatedResult keyPointRect rand1 rand2
    | some f =>
      if f.hasBox then
        let expectedCenterX : ℝ := (keyPointRect.width : ℝ) / 2
        let expectedCenterY : ℝ := (keyPointRect.height : ℝ) / 2
        let positionOffset : ℝ :=
          Real.sqrt ((f.posX - expectedCenterX) ^ 2 + (f.posY - expectedCenterY) ^ 2)
        let positionOk : Bool := decide (positionOffset ≤ settings.positionSensitivity)
        let expectedRotation : ℝ := rf.rotation
        let rotationDiff : ℝ := |f.rotation - expectedRotation|
        let normalizedRotation : ℝ := min rotationDiff (360 - rotationDiff)
        let rotationOk : Bool := decide (normalizedRotation ≤ settings.rotationSensitivity)
        if !positionOk || !rotationOk then
          { hasAlert := true
            message := String.intercalate ", "
              ((if !positionOk then
                  ["ตำแหน่งเลื่อน " ++ toString (round positionOffset) ++ "px"] else []) ++
               (if !rotationOk then
                  ["เอียง " ++ toString (round normalizedRotation) ++ "°"] else []))
            box := some keyPointRect
            confidence := max 0 (100 - positionOffset / 5 - normalizedRotation * 2)
            details := some ⟨round positionOffset, round normalizedRotation,
                             positionOk, rotationOk⟩ }
        else
          { hasAlert := false
            message := "กล่องอยู่ในตำแหน่งที่ถูกต้อง"
            box := some keyPointRect
            confidence := 100
            details := some ⟨round positionOffset, round normalizedRotation,
                             positionOk, rotationOk⟩ }
      else noBoxSimulatedResult keyPointRect rand1 rand2

/-- The neutral result `analyzeFrame` returns when no reference is
initialised or no frame is supplied (part_003 lines 647-654). -/
def noReferenceResult : DetectionResult :=
  { hasAlert := false
    message := "ไม่มีภาพอ้างอิง"
    box := none
    confidence := 0
    details := none }

/-- The conservative result `analyzeFrame` builds in its `catch` block
(part_003 lines 668-676). -/
def analysisErrorResult : DetectionResult :=
  { hasAlert := true
    message := "เกิดข้อผิดพลาดในการวิเคราะห์"
    box := none
    confidence := 0
    details := none }

/-- `DetectionEngine.analyzeFrame(frameData, settings)` (part_003 lines
646-677).  The body of the `try` block (settings merge, then
`analyzeWithDrawingAreas` or `analyzeLegacyMode`) is abstracted as a
fallible computation `inner`: a JavaScript exception thrown anywhere
inside it is an `Except.error`, which the `catch` converts into
`analysisErrorResult`. -/
def analyzeFrame (isInitialized : Bool) (frameData : Option Frame)
    (inner : Except String DetectionResult) : DetectionResult :=
  if !isInitialized || frameData.isNone then noReferenceResult
  else
    match inner with
    | .ok r => r
    | .error _ => analysisErrorResult

/-- One entry of `this.detectionHistory`: the pushed object is
`{...result, timestamp: Date.now()}`. -/
structure HistoryEntry where
  result : DetectionResult
  timestamp : ℕ

/-- `DetectionEngine.addToHistory(result)` (part_003 lines 1393-1402):
push the result (with a timestamp), then `shift()` the oldest entry off
whenever the length exceeds 100. -/
def addToHistory (history : List HistoryEntry) (result : DetectionResult)
    (now : ℕ) : List HistoryEntry :=
  let pushed := history ++ [⟨result, now⟩]
  if 100 < pushed.length then pushed.drop 1 else pushed

/-- Appending a whole sequence of results through `addToHistory`,
starting from a given history. -/
def addAllToHistory (history : List HistoryEntry)
    (results : List (DetectionResult × ℕ)) : List HistoryEntry :=
  results.foldl (fun h p => addToHistory h p.1 p.2) history

/-- The statistics record returned by `getStatistics`. -/
structure Statistics where
  total : ℕ
  alerts : ℕ
  alertRate : ℝ
  averageConfidence : ℝ

/-- `DetectionEngine.getStatistics()` (part_003 lines 1408-1427). -/
noncomputable def getStatistics (history : List HistoryEntry) : Statistics :=
  if history.length = 0 then
    { total := 0, alerts := 0, alertRate := 0, averageConfidence := 100 }
  else
    let alerts := (history.filter (fun d => d.result.hasAlert)).length
    let totalConfidence := history.foldl (fun sum d => sum + d.result.confidence) 0
    { total := history.length
      alerts := alerts
      alertRate := ((alerts : ℝ) / (history.length : ℝ)) * 100
      averageConfidence := totalConfidence / (history.length : ℝ) }

/-! ## Sample concrete values used by witnesses and counterexamples -/

/-- Sample reference features with rotation 170°. -/
noncomputable def sampleRef : RefFeatures := ⟨50, 50, 170, 2500⟩

/-- Sample observed features: box found, rotation −170°, position (8, 6). -/
noncomputable def sampleBox : BoxFeatures := ⟨true, -170, 8, 6, 4000, 4⟩

/-- Sample analysis carrying `sampleBox`. -/
noncomputable def sampleAnalysis : Analysis := ⟨some sampleBox, 3⟩

/-- Sample key-point rectangle. -/
def sampleRect : Rect := ⟨10, 20, 100, 100⟩

/-- The engine's default settings (part_003 lines 510-516). -/
noncomputable def sampleSettings : Settings := ⟨5, 20, 50, 1000, 500000⟩

/-! ## Theorems -/

/-- C9: `getStatistics` on an empty detection history returns exactly
`{total: 0, alerts: 0, alertRate: 0, averageConfidence: 100}`. -/
theorem getStatistics_empty_history :
    getStatistics [] = ⟨0, 0, 0, 100⟩ := rfl

/-- C7: `analyzeFrame` converts any internal failure of the analysis
pipeline into a well-formed conservative result with `hasAlert = true`,
the generic diagnostic message, and confidence 0; no exception reaches
the caller (the return type is always a `DetectionResult`). -/
theorem analyzeFrame_error_boundary (f : Frame) (e : String) :
    analyzeFrame true (some f) (Except.error e) = analysisErrorResult ∧
    analysisErrorResult.hasAlert = true ∧
    analysisErrorResult.confidence = 0 ∧
    analysisErrorResult.message = "เกิดข้อผิดพลาดในการวิเคราะห์" :=
  ⟨rfl, rfl, rfl, rfl⟩

/-- Auxiliary: running `addAllToHistory` over `l ++ [p]` is one more
`addToHistory` after running it over `l`. -/
theorem addAllToHistory_append_single (h : List HistoryEntry)
    (l : List (DetectionResult × ℕ)) (p : DetectionResult × ℕ) :
    addAllToHistory h (l ++ [p]) = addToHistory (addAllToHistory h l) p.1 p.2 := by
  simp [addAllToHistory, List.foldl_append]

/-- C4: the detection history is a strict capacity-100 FIFO sliding
window: appending any sequence of results to an empty history leaves
exactly the most recent 100 (all of them when fewer), in append order,
and the history never exceeds 100 entries. -/
theorem detectionHistory_sliding_window (results : List (DetectionResult × ℕ)) :
    addAllToHistory [] results =
      (results.map fun p => HistoryEntry.mk p.1 p.2).drop (results.length - 100) ∧
    (addAllToHistory [] results).length ≤ 100 := by
  have main : addAllToHistory [] results =
      (results.map fun p => HistoryEntry.mk p.1 p.2).drop (results.length - 100) := by
    induction results using List.reverseRecOn with
    | nil => rfl
    | append_singleton l p ih =>
      rw [addAllToHistory_append_single, ih]
      set m := l.map fun p => HistoryEntry.mk p.1 p.2 with hm
      have hml : m.length = l.length := by simp [hm]
      rw [addToHistory]
      by_cases hle : l.length ≤ 99
      · have h0 : l.length - 100 = 0 := by omega
        have hlen : (m.drop (l.length - 100) ++ [HistoryEntry.mk p.1 p.2]).length ≤ 100 := by
          simp only [List.length_append, List.length_drop, List.length_cons,
            List.length_nil, hml]
          omega
        rw [if_neg (by omega)]
        have h1 : (l ++ [p]).length - 100 = 0 := by
          simp only [List.length_append, List.length_cons, List.length_nil]
          omega
        rw [List.map_append, h1, h0, List.drop_zero, List.drop_zero, hm]
        rfl
      · have h100 : 100 ≤ l.length := by omega
        have hdlen : (m.drop (l.length - 100)).length = 100 := by
          simp only [List.length_drop, hml]; omega
        have hlen : (m.drop (l.length - 100) ++ [HistoryEntry.mk p.1 p.2]).length = 101 := by
          simp only [List.length_append, hdlen, List.length_cons, List.length_nil]
        rw [if_pos (by omega)]
        rw [List.drop_append_of_le_length (by omega)]
        rw [List.drop_drop]
        have hk : (l ++ [p]).length - 100 = l.length - 100 + 1 := by
          simp only [List.length_append, List.length_cons, List.length_nil]
          omega
        have hle2 : l.length - 100 + 1 ≤ (l.map fun p => HistoryEntry.mk p.1 p.2).length := by
          simp only [List.length_map]; omega
        rw [List.map_append, hk, List.drop_append_of_le_length hle2, hm]
        rfl
  refine ⟨main, ?_⟩
  rw [main]
  simp only [List.length_drop, List.length_map]
  omega

/-- C10: `compareWithReference` is deterministic on the detected-box
path: when the analysis carries features with `hasBox = true`, the
result does not depend on the `Math.random()` draws, so two calls with
equal analysis, reference features and settings return equal results. -/
theorem compareWithReference_deterministic (refF : Option RefFeatures)
    (kpr : Rect) (s : Settings) (a : Analysis) (f : BoxFeatures)
    (r1 r2 q1 q2 : ℚ) (hf : a.features = some f) (hb : f.hasBox = true) :
    compareWithReference refF kpr s a r1 r2 =
      compareWithReference refF kpr s a q1 q2 := by
  cases refF with
  | none => rfl
  | some rf => simp only [compareWithReference, hf, hb, if_true]

/-- Witness for `compareWithReference_deterministic` at concrete inputs
(two different pairs of random draws). -/
theorem compareWithReference_deterministic_witness :
    sampleAnalysis.features = some sampleBox ∧ sampleBox.hasBox = true ∧
    compareWithReference (some sampleRef) sampleRect sampleSettings sampleAnalysis 0 0 =
      compareWithReference (some sampleRef) sampleRect sampleSettings sampleAnalysis
        (1/2) (3/4) :=
  ⟨rfl, rfl, compareWithReference_deterministic (some sampleRef) sampleRect sampleSettings
    sampleAnalysis sampleBox 0 0 (1/2) (3/4) rfl rfl⟩

/-- C1: on the detected-box path (`hasBox = true`), `compareWithReference`
alerts exactly when the computed position offset exceeds
`settings.positionSensitivity` or the normalized rotation offset exceeds
`settings.rotationSensitivity`; when alerting the confidence is
`max 0 (100 − positionOffset/5 − rotationOffset·2)`, and when both
checks pass the confidence is 100. -/
theorem compareWithReference_alert_iff (rf : RefFeatures) (kpr : Rect)
    (s : Settings) (a : Analysis) (f : BoxFeatures) (r1 r2 : ℚ)
    (hf : a.features = some f) (hb : f.hasBox = true) :
    ((compareWithReference (some rf) kpr s a r1 r2).hasAlert = true ↔
      (s.positionSensitivity <
          Real.sqrt ((f.posX - (kpr.width : ℝ) / 2) ^ 2 +
            (f.posY - (kpr.height : ℝ) / 2) ^ 2) ∨
        s.rotationSensitivity <
          min |f.rotation - rf.rotation| (360 - |f.rotation - rf.rotation|))) ∧
    ((compareWithReference (some rf) kpr s a r1 r2).hasAlert = true →
      (compareWithReference (some rf) kpr s a r1 r2).confidence =
        max 0 (100 -
          Real.sqrt ((f.posX - (kpr.width : ℝ) / 2) ^ 2 +
            (f.posY - (kpr.height : ℝ) / 2) ^ 2) / 5 -
          min |f.rotation - rf.rotation| (360 - |f.rotation - rf.rotation|) * 2)) ∧
    ((compareWithReference (some rf) kpr s a r1 r2).hasAlert = false →
      (compareWithReference (some rf) kpr s a r1 r2).confidence = 100) := by
  set posOff : ℝ := Real.sqrt ((f.posX - (kpr.width : ℝ) / 2) ^ 2 +
    (f.posY - (kpr.height : ℝ) / 2) ^ 2) with hpos
  set rotOff : ℝ := min |f.rotation - rf.rotation| (360 - |f.rotation - rf.rotation|)
    with hrot
  by_cases hp : posOff ≤ s.positionSensitivity
  · by_cases hr : rotOff ≤ s.rotationSensitivity
    · have hA : (compareWithReference (some rf) kpr s a r1 r2).hasAlert = false := by
        simp only [compareWithReference, hf, hb, ← hpos, ← hrot,
          decide_eq_true hp, decide_eq_true hr]
        simp
      have hC : (compareWithReference (some rf) kpr s a r1 r2).confidence = 100 := by
        simp only [compareWithReference, hf, hb, ← hpos, ← hrot,
          decide_eq_true hp, decide_eq_true hr]
        simp
      refine ⟨?_, ?_, fun _ => hC⟩
      · rw [hA]
        simp only [Bool.false_eq_true, false_iff]
        push_neg
        exact ⟨hp, hr⟩
      · intro h
        rw [hA] at h
        exact absurd h (by simp)
    · have hA : (compareWithReference (some rf) kpr s a r1 r2).hasAlert = true := by
        simp only [compareWithReference, hf, hb, ← hpos, ← hrot,
          decide_eq_true hp, decide_eq_false hr]
        simp
      have hC : (compareWithReference (some rf) kpr s a r1 r2).confidence =
          max 0 (100 - posOff / 5 - rotOff * 2) := by
        simp only [compareWithReference, hf, hb, ← hpos, ← hrot,
          decide_eq_true hp, decide_eq_false hr]
        simp
      refine ⟨?_, fun _ => hC, ?_⟩
      · rw [hA]
        simp only [true_iff]
        exact Or.inr (lt_of_not_le hr)
      · intro h
        rw [hA] at h
        exact absurd h (by simp)
  · have hAx : (compareWithReference (some rf) kpr s a r1 r2).hasAlert = true ∧
        (compareWithReference (some rf) kpr s a r1 r2).confidence =
          max 0 (100 - posOff / 5 - rotOff * 2) := by
      by_cases hr : rotOff ≤ s.rotationSensitivity
      · constructor
        · simp only [compareWithReference, hf, hb, ← hpos, ← hrot,
            decide_eq_false hp, decide_eq_true hr]
          simp
        · simp only [compareWithReference, hf, hb, ← hpos, ← hrot,
            decide_eq_false hp, decide_eq_true hr]
          simp
      · constructor
        · simp only [compareWithReference, hf, hb, ← hpos, ← hrot,
            decide_eq_false hp, decide_eq_false hr]
          simp
        · simp only [compareWithReference, hf, hb, ← hpos, ← hrot,
            decide_eq_false hp, decide_eq_false hr]
          simp
    obtain ⟨hA, hC⟩ := hAx
    refine ⟨?_, fun _ => hC, ?_⟩
    · rw [hA]
      simp only [true_iff]
      exact Or.inl (lt_of_not_le hp)
    · intro h
      rw [hA] at h
      exact absurd h (by simp)

/-- Witness for `compareWithReference_alert_iff` at concrete inputs. -/
theorem compareWithReference_alert_iff_witness :
    sampleAnalysis.features = some sampleBox ∧ sampleBox.hasBox = true ∧
    (((compareWithReference (some sampleRef) sampleRect sampleSettings
          sampleAnalysis 0 0).hasAlert = true ↔
        (sampleSettings.positionSensitivity <
            Real.sqrt ((sampleBox.posX - (sampleRect.width : ℝ) / 2) ^ 2 +
              (sampleBox.posY - (sampleRect.height : ℝ) / 2) ^ 2) ∨
          sampleSettings.rotationSensitivity <
            min |sampleBox.rotation - sampleRef.rotation|
              (360 - |sampleBox.rotation - sampleRef.rotation|))) ∧
      ((compareWithReference (some sampleRef) sampleRect sampleSettings
          sampleAnalysis 0 0).hasAlert = true →
        (compareWithReference (some sampleRef) sampleRect sampleSettings
          sampleAnalysis 0 0).confidence =
          max 0 (100 -
            Real.sqrt ((sampleBox.posX - (sampleRect.width : ℝ) / 2) ^ 2 +
              (sampleBox.posY - (sampleRect.height : ℝ) / 2) ^ 2) / 5 -
            min |sampleBox.rotation - sampleRef.rotation|
              (360 - |sampleBox.rotation - sampleRef.rotation|) * 2)) ∧
      ((compareWithReference (some sampleRef) sampleRect sampleSettings
          sampleAnalysis 0 0).hasAlert = false →
        (compareWithReference (some sampleRef) sampleRect sampleSettings
          sampleAnalysis 0 0).confidence = 100)) :=
  ⟨rfl, rfl, compareWithReference_alert_iff sampleRef sampleRect sampleSettings
    sampleAnalysis sampleBox 0 0 rfl rfl⟩

/-- C2: on the detected-box path the Drift Comparator computes the
rotation offset with angular wraparound,
`min |observed − reference| (360 − |observed − reference|)` (then stores
its `Math.round`), for every reference and observed rotation. -/
theorem compareWithReference_rotation_offset (rf : RefFeatures) (kpr : Rect)
    (s : Settings) (a : Analysis) (f : BoxFeatures) (r1 r2 : ℚ)
    (hf : a.features = some f) (hb : f.hasBox = true) :
    ((compareWithReference (some rf) kpr s a r1 r2).details).map
        Details.rotationOffset =
      some (round (min |f.rotation - rf.rotation|
        (360 - |f.rotation - rf.rotation|))) := by
  set posOff : ℝ := Real.sqrt ((f.posX - (kpr.width : ℝ) / 2) ^ 2 +
    (f.posY - (kpr.height : ℝ) / 2) ^ 2) with hpos
  set rotOff : ℝ := min |f.rotation - rf.rotation| (360 - |f.rotation - rf.rotation|)
    with hrot
  by_cases hp : posOff ≤ s.positionSensitivity <;>
    by_cases hr : rotOff ≤ s.rotationSensitivity
  · simp only [compareWithReference, hf, hb, ← hpos, ← hrot,
      decide_eq_true hp, decide_eq_true hr]
    simp
  · simp only [compareWithReference, hf, hb, ← hpos, ← hrot,
      decide_eq_true hp, decide_eq_false hr]
    simp
  · simp only [compareWithReference, hf, hb, ← hpos, ← hrot,
      decide_eq_false hp, decide_eq_true hr]
    simp
  · simp only [compareWithReference, hf, hb, ← hpos, ← hrot,
      decide_eq_false hp, decide_eq_false hr]
    simp

/-- Witness for `compareWithReference_rotation_offset`: with reference
rotation 170° and observed rotation −170° the stored rotation offset is
20°, not 340°. -/
theorem compareWithReference_rotation_offset_witness :
    sampleAnalysis.features = some sampleBox ∧ sampleBox.hasBox = true ∧
    ((compareWithReference (some sampleRef) sampleRect sampleSettings
        sampleAnalysis 0 0).details).map Details.rotationOffset = some 20 := by
  refine ⟨rfl, rfl, ?_⟩
  have h := compareWithReference_rotation_offset sampleRef sampleRect sampleSettings
    sampleAnalysis sampleBox 0 0 rfl rfl
  rw [h]
  have h1 : sampleBox.rotation = (-170 : ℝ) := rfl
  have h2 : sampleRef.rotation = (170 : ℝ) := rfl
  rw [h1, h2]
  have h3 : |(-170 : ℝ) - 170| = 340 := by
    rw [show ((-170 : ℝ) - 170) = -(340 : ℝ) by norm_num, abs_neg]
    exact abs_of_nonneg (by norm_num)
  rw [h3]
  have h4 : min (340 : ℝ) (360 - 340) = 20 := by
    rw [min_eq_right (by norm_num)]
    norm_num
  rw [h4]
  have h5 : round (20 : ℝ) = 20 := by
    rw [round_eq]
    norm_num
  rw [h5]

/-- Auxiliary for one axis of `extractROI`: the truncated size
`min fw (W − clamp(fx))` is non-positive exactly when the floored scaled
size `fw` is (given `0 ≤ W`, and that `W = 0` forces `fw ≤ 0`, which
holds because a zero frame dimension zeroes the scale factor). -/
theorem min_clamp_le_zero_iff (W fx fw : ℤ) (hWnn : 0 ≤ W)
    (hW0 : W = 0 → fw ≤ 0) :
    min fw (W - max 0 (min fx (W - 1))) ≤ 0 ↔ fw ≤ 0 := by
  constructor
  · intro h
    rcases min_le_iff.mp h with h1 | h1
    · exact h1
    · have hsx2 : min fx (W - 1) ≤ W - 1 := min_le_right _ _
      rcases eq_or_lt_of_le hWnn with hW | hW
    -- `W = 0`: the scale factor vanished, so `fw ≤ 0` by hypothesis
      · exact hW0 hW.symm
      · have hsx3 : max 0 (min fx (W - 1)) ≤ W - 1 := max_le (by omega) hsx2
        omega
  · intro h
    exact le_trans (min_le_left _ _) h

/-- Auxiliary: the clamped origin plus the truncated size never exceeds
the frame dimension. -/
theorem clamped_sum_le (W fx fw : ℤ) :
    max 0 (min fx (W - 1)) + min fw (W - max 0 (min fx (W - 1))) ≤ W := by
  have h1 : min fw (W - max 0 (min fx (W - 1))) ≤ W - max 0 (min fx (W - 1)) :=
    min_le_right _ _
  omega

/-- The rectangle, viewed as the planar region
`[x, x+width) × [y, y+height)`, has a nonempty intersection with the
frame area `[0, W) × [0, H)`. -/
def rectMeetsFrame (r : Rect) (W H : ℚ) : Prop :=
  0 < r.width ∧ 0 < r.height ∧ r.x < W ∧ 0 < r.x + r.width ∧
    r.y < H ∧ 0 < r.y + r.height

instance (r : Rect) (W H : ℚ) : Decidable (rectMeetsFrame r W H) := by
  unfold rectMeetsFrame
  infer_instance

/-- Sample pixel buffer for the `extractROI` theorems: 10 × 10, filled. -/
def cImg : ImageData := ⟨10, 10, List.replicate 400 7⟩

/-- Sample frame wrapping `cImg` (metadata matches the buffer, so the
scale factors are 1). -/
def cFrame : Frame := ⟨10, 10, some cImg⟩

/-- C3 counterexample: the rectangle `{x: 5, y: 5, width: 1/2, height: 3}`
lies strictly inside the 10 × 10 frame (nonempty intersection), yet
`extractROI` fails (`null`), because the half-pixel width floors to 0.
So a zero-area (failed) result does not occur only when the rectangle's
intersection with the frame is empty. -/
theorem extractROI_failure_counterexample :
    extractROI cFrame ⟨5, 5, 1/2, 3⟩ = none ∧
    rectMeetsFrame ⟨5, 5, 1/2, 3⟩ 10 10 := by
  constructor
  · simp only [extractROI, cFrame, cImg]
    norm_num
  · unfold rectMeetsFrame
    norm_num

/-- C3 (amended): for every frame with pixel data (of positive
dimensions) and every rectangle, a successful `extractROI` returns a
region whose bounds are a subset of the frame; but it returns a failed
(`null`) result exactly when the scaled rectangle's floored width or
height is non-positive — not only when the rectangle's intersection
with the frame is empty (a rectangle wholly outside the frame whose
scaled size reaches one pixel is clamped onto the frame edge and
succeeds, and a sub-pixel-wide rectangle inside the frame fails). -/
theorem extractROI_clamped_subset_and_failure (frame : Frame) (img : ImageData)
    (rect : Rect) (himg : frame.imageData = some img)
    (hw : 0 < img.width) (hh : 0 < img.height) :
    (extractROI frame rect = none ↔
      ⌊rect.width * ((frame.width : ℚ) / (img.width : ℚ))⌋ ≤ 0 ∨
      ⌊rect.height * ((frame.height : ℚ) / (img.height : ℚ))⌋ ≤ 0) ∧
    (∀ roi, extractROI frame rect = some roi →
      0 ≤ roi.originalRect.x ∧ 0 ≤ roi.originalRect.y ∧
      0 < roi.originalRect.width ∧ 0 < roi.originalRect.height ∧
      roi.originalRect.x + roi.originalRect.width ≤ (frame.width : ℤ) ∧
      roi.originalRect.y + roi.originalRect.height ≤ (frame.height : ℤ)) := by
  have hW0 : (frame.width : ℤ) = 0 →
      ⌊rect.width * ((frame.width : ℚ) / (img.width : ℚ))⌋ ≤ 0 := by
    intro h0
    have h0n : frame.width = 0 := by exact_mod_cast h0
    rw [h0n]
    norm_num
  have hH0 : (frame.height : ℤ) = 0 →
      ⌊rect.height * ((frame.height : ℚ) / (img.height : ℚ))⌋ ≤ 0 := by
    intro h0
    have h0n : frame.height = 0 := by exact_mod_cast h0
    rw [h0n]
    norm_num
  constructor
  · simp only [extractROI, himg]
    split
    case isTrue h =>
      refine iff_of_true rfl ?_
      rcases h with h | h
      · exact Or.inl ((min_clamp_le_zero_iff _ _ _ (Int.ofNat_nonneg _) hW0).mp h)
      · exact Or.inr ((min_clamp_le_zero_iff _ _ _ (Int.ofNat_nonneg _) hH0).mp h)
    case isFalse h =>
      refine iff_of_false (by simp) ?_
      intro contra
      apply h
      rcases contra with hc | hc
      · exact Or.inl ((min_clamp_le_zero_iff _ _ _ (Int.ofNat_nonneg _) hW0).mpr hc)
      · exact Or.inr ((min_clamp_le_zero_iff _ _ _ (Int.ofNat_nonneg _) hH0).mpr hc)
  · intro roi hroi
    simp only [extractROI, himg] at hroi
    split at hroi
    case isTrue h => exact absurd hroi (by simp)
    case isFalse h =>
      push_neg at h
      obtain ⟨h1, h2⟩ := h
      injection hroi with hroieq
      subst hroieq
      exact ⟨le_max_left _ _, le_max_left _ _, h1, h2,
        clamped_sum_le _ _ _, clamped_sum_le _ _ _⟩

/-- Witness for `extractROI_clamped_subset_and_failure` at a concrete
frame and rectangle. -/
theorem extractROI_clamped_subset_and_failure_witness :
    cFrame.imageData = some cImg ∧ 0 < cImg.width ∧ 0 < cImg.height ∧
    ((extractROI cFrame sampleRect = none ↔
        ⌊sampleRect.width * ((cFrame.width : ℚ) / (cImg.width : ℚ))⌋ ≤ 0 ∨
        ⌊sampleRect.height * ((cFrame.height : ℚ) / (cImg.height : ℚ))⌋ ≤ 0) ∧
      (∀ roi, extractROI cFrame sampleRect = some roi →
        0 ≤ roi.originalRect.x ∧ 0 ≤ roi.originalRect.y ∧
        0 < roi.originalRect.width ∧ 0 < roi.originalRect.height ∧
        roi.originalRect.x + roi.originalRect.width ≤ (cFrame.width : ℤ) ∧
        roi.originalRect.y + roi.originalRect.height ≤ (cFrame.height : ℤ))) :=
  ⟨rfl, by decide, by decide,
    extractROI_clamped_subset_and_failure cFrame cImg sampleRect rfl
      (by decide) (by decide)⟩

/-- C6 (amended): `applyGaussianBlur` leaves border pixels (within
`radius` of any image edge) at the zero fill of the freshly allocated
output buffer — they are zeroed, not copied from the input — while
interior pixels receive the normalized convolution on channels 0-2 and
the copied input alpha on channel 3. -/
theorem applyGaussianBlur_pixel (img : ImageData) (radius i : ℕ)
    (hi : i < img.data.length) :
    ((i / 4) % img.width < radius ∨ img.width ≤ (i / 4) % img.width + radius ∨
        (i / 4) / img.width < radius ∨ img.height ≤ (i / 4) / img.width + radius →
      pixByte (applyGaussianBlur img radius).data i = 0) ∧
    (radius ≤ (i / 4) % img.width ∧ (i / 4) % img.width + radius < img.width ∧
        radius ≤ (i / 4) / img.width ∧ (i / 4) / img.width + radius < img.height →
      (i % 4 = 3 → pixByte (applyGaussianBlur img radius).data i = pixByte img.data i) ∧
      (i % 4 ≠ 3 → pixByte (applyGaussianBlur img radius).data i =
        u8clamp (blurInterior img radius ((i / 4) % img.width) ((i / 4) / img.width)))) := by
  have hhalf : (2 * radius + 1) / 2 = radius := by omega
  have key : pixByte (applyGaussianBlur img radius).data i =
      if radius ≤ (i / 4) % img.width ∧ (i / 4) % img.width < img.width - radius ∧
          radius ≤ (i / 4) / img.width ∧ (i / 4) / img.width < img.height - radius then
        (if i % 4 = 3 then pixByte img.data i
         else u8clamp (blurInterior img radius ((i / 4) % img.width) ((i / 4) / img.width)))
      else 0 := by
    simp only [applyGaussianBlur, pixByte]
    rw [List.getD_eq_getD_get?, List.get?_ofFn]
    unfold List.ofFnNthVal
    rw [dif_pos hi]
    simp only [Option.getD_some, hhalf]
  constructor
  · intro hborder
    rw [key, if_neg]
    omega
  · intro hinterior
    rw [key, if_pos (by omega)]
    constructor
    · intro hc
      rw [if_pos hc]
    · intro hc
      rw [if_neg hc]

/-- A 3 × 3 fully white test image (every RGBA byte 255). -/
def tinyImage : ImageData := ⟨3, 3, List.replicate 36 255⟩

/-- C6 counterexample: blurring the all-white 3 × 3 image with radius 1
leaves the corner border pixel at 0, not at its input value 255 — so
border pixels are not "copied as-is". -/
theorem applyGaussianBlur_border_not_copied :
    pixByte (applyGaussianBlur tinyImage 1).data 0 = 0 ∧
    pixByte tinyImage.data 0 = 255 := by
  constructor
  · have h0 : (0 : ℕ) < tinyImage.data.length := by decide
    simp only [applyGaussianBlur, pixByte]
    rw [List.getD_eq_getD_get?, List.get?_ofFn]
    unfold List.ofFnNthVal
    rw [dif_pos h0]
    simp only [Option.getD_some]
    norm_num [tinyImage]
  · decide

/-- Witness for `applyGaussianBlur_pixel` at a concrete image, radius
and border index. -/
theorem applyGaussianBlur_pixel_witness :
    (1 < tinyImage.data.length ∧ (1 / 4) % tinyImage.width < 1) ∧
    pixByte (applyGaussianBlur tinyImage 1).data 1 = 0 :=
  ⟨⟨by decide, by decide⟩,
    (applyGaussianBlur_pixel tinyImage 1 1 (by decide)).1 (Or.inl (by decide))⟩

/-- Number of unvisited entries of a `visited` array (the potential of
the traversal measure `9·#unvisited + |stack|`). -/
def countFalse : List Bool → ℕ
  | [] => 0
  | b :: t => (if b then 0 else 1) + countFalse t

/-- There are at most `length` unvisited entries. -/
theorem countFalse_le_length (l : List Bool) : countFalse l ≤ l.length := by
  induction l with
  | nil => simp [countFalse]
  | cons b t ih =>
    simp only [countFalse, List.length_cons]
    split <;> omega

/-- Marking an unvisited in-range entry visited decreases the
unvisited count by exactly one. -/
theorem countFalse_set (l : List Bool) (i : ℕ) (hi : i < l.length)
    (hf : l.getD i false = false) :
    countFalse (l.set i true) + 1 = countFalse l := by
  induction l generalizing i with
  | nil => simp at hi
  | cons b t ih =>
    cases i with
    | zero =>
      simp only [List.getD_cons_zero] at hf
      subst hf
      simp [List.set, countFalse]
      omega
    | succ j =>
      simp only [List.getD_cons_succ] at hf
      simp only [List.length_cons] at hi
      simp only [List.set, countFalse]
      have := ih j (by omega) hf
      omega

/-- Unfolding `traceContourFuel` on an empty stack: the loop exits at
once, for any remaining fuel. -/
theorem traceContourFuel_nil (data : List ℕ) (width height : ℤ) (g : ℕ)
    (visited : List Bool) (contour : List (ℤ × ℤ)) :
    traceContourFuel data width height g [] visited contour = (contour, visited) := by
  cases g <;> simp [traceContourFuel]

/-- Unfolding one iteration of `traceContourFuel` on a non-empty stack. -/
theorem traceContourFuel_succ (data : List ℕ) (width height : ℤ) (fuel : ℕ)
    (x y : ℤ) (rest : List (ℤ × ℤ)) (visited : List Bool)
    (contour : List (ℤ × ℤ)) :
    traceContourFuel data width height (fuel + 1) ((x, y) :: rest) visited contour =
      if 1000 ≤ contour.length then (contour, visited)
      else if x < 0 ∨ width ≤ x ∨ y < 0 ∨ height ≤ y ∨
          visited.getD (y * width + x).toNat false then
        traceContourFuel data width height fuel rest visited contour
      else if 128 < pixByte data ((y * width + x).toNat * 4) then
        traceContourFuel data width height fuel
          ((directions.reverse.map fun d => (x + d.1, y + d.2)) ++ rest)
          (visited.set (y * width + x).toNat true)
          (contour ++ [(x, y)])
      else traceContourFuel data width height fuel rest visited contour := by
  simp [traceContourFuel]

/-- The traversal never collects more than 1000 points (the cap is
checked before every pop and the contour grows one point at a time). -/
theorem traceContourFuel_length_le (data : List ℕ) (width height : ℤ) :
    ∀ (fuel : ℕ) (stack : List (ℤ × ℤ)) (visited : List Bool)
      (contour : List (ℤ × ℤ)), contour.length ≤ 1000 →
      (traceContourFuel data width height fuel stack visited contour).1.length ≤ 1000 := by
  intro fuel
  induction fuel with
  | zero =>
    intro stack visited contour hc
    cases stack <;> simpa [traceContourFuel] using hc
  | succ f ihf =>
    intro stack visited contour hc
    cases stack with
    | nil => simpa [traceContourFuel_nil] using hc
    | cons p rest =>
      obtain ⟨x, y⟩ := p
      rw [traceContourFuel_succ]
      by_cases hcap : 1000 ≤ contour.length
      · simpa [if_pos hcap] using hc
      · rw [if_neg hcap]
        split
      -- skip an out-of-bounds or already-visited pixel
        · exact ihf rest visited contour hc
        · split
      -- collect a strong-edge pixel (the cap guard makes the new length ≤ 1000)
          · exact ihf _ _ _ (by simp only [List.length_append, List.length_cons,
              List.length_nil]; omega)
      -- skip a weak pixel
          · exact ihf rest visited contour hc

/-- Any fuel at least the measure `9·#unvisited + |stack|` computes the
same result as the measure itself: every loop iteration strictly
decreases the measure (a pop costs 1; a newly visited pixel pays for
its 8 pushed neighbours), so the traversal terminates within it. -/
theorem traceContourFuel_eq_of_le (data : List ℕ) (width height : ℤ) :
    ∀ (fuel : ℕ) (stack : List (ℤ × ℤ)) (visited : List Bool)
      (contour : List (ℤ × ℤ)),
      visited.length = width.toNat * height.toNat →
      9 * countFalse visited + stack.length ≤ fuel →
      traceContourFuel data width height fuel stack visited contour =
        traceContourFuel data width height
          (9 * countFalse visited + stack.length) stack visited contour := by
  intro fuel
  induction fuel using Nat.strong_induction_on with
  | _ fuel IH =>
    intro stack visited contour hlen hM
    cases stack with
    | nil => rw [traceContourFuel_nil, traceContourFuel_nil]
    | cons p rest =>
      obtain ⟨x, y⟩ := p
      cases fuel with
      | zero =>
        exfalso
        simp only [List.length_cons] at hM
        omega
      | succ f =>
        have hm1 : 9 * countFalse visited + ((x, y) :: rest).length =
            (9 * countFalse visited + rest.length) + 1 := by
          simp only [List.length_cons]
          omega
        rw [hm1, traceContourFuel_succ, traceContourFuel_succ]
        by_cases hcap : 1000 ≤ contour.length
        · rw [if_pos hcap, if_pos hcap]
        · rw [if_neg hcap, if_neg hcap]
          by_cases hguard : x < 0 ∨ width ≤ x ∨ y < 0 ∨ height ≤ y ∨
              visited.getD (y * width + x).toNat false
          · rw [if_pos hguard, if_pos hguard]
            have h1 : 9 * countFalse visited + rest.length ≤ f := by
              simp only [List.length_cons] at hM
              omega
            rw [IH f (by omega) rest visited contour hlen h1]
          · rw [if_neg hguard, if_neg hguard]
            by_cases hstrong : 128 < pixByte data ((y * width + x).toNat * 4)
            · rw [if_pos hstrong, if_pos hstrong]
              push_neg at hguard
              obtain ⟨hx0, hxw, hy0, hyh, hvis⟩ := hguard
              have hvis' : visited.getD (y * width + x).toNat false = false := by
                simpa using hvis
              have hwpos : (0 : ℤ) < width := by omega
              have hymul : (0 : ℤ) ≤ y * width := mul_nonneg hy0 hwpos.le
              have hidx0 : (0 : ℤ) ≤ y * width + x := by omega
              have h2 : y * width ≤ (height - 1) * width :=
                mul_le_mul_of_nonneg_right (by omega) hwpos.le
              have h3 : (height - 1) * width = height * width - width := by ring
              have h4 : height * width = width * height := mul_comm _ _
              have hidxlt : y * width + x < width * height := by linarith
              have htn : (y * width + x).toNat < visited.length := by
                rw [hlen]
                have hcast : ((width.toNat * height.toNat : ℕ) : ℤ) = width * height := by
                  push_cast
                  rw [Int.toNat_of_nonneg (by omega), Int.toNat_of_nonneg (by omega)]
                omega
              have hcf : countFalse (visited.set (y * width + x).toNat true) + 1 =
                  countFalse visited := countFalse_set _ _ htn hvis'
              have hlen2 : (visited.set (y * width + x).toNat true).length =
                  width.toNat * height.toNat := by rw [List.length_set, hlen]
              have hstack :
                  ((directions.reverse.map fun d => (x + d.1, y + d.2)) ++ rest).length =
                    rest.length + 8 := by
                simp [directions]
              have hM2 : 9 * countFalse (visited.set (y * width + x).toNat true) +
                  ((directions.reverse.map fun d => (x + d.1, y + d.2)) ++ rest).length
                    ≤ f := by
                rw [hstack]
                simp only [List.length_cons] at hM
                omega
              have hM3 : 9 * countFalse (visited.set (y * width + x).toNat true) +
                  ((directions.reverse.map fun d => (x + d.1, y + d.2)) ++ rest).length
                    ≤ 9 * countFalse visited + rest.length := by
                rw [hstack]
                omega
              have hflt : 9 * countFalse visited + rest.length < f + 1 := by
                simp only [List.length_cons] at hM
                omega
              rw [IH f (by omega) _ _ _ hlen2 hM2]
              rw [IH (9 * countFalse visited + rest.length) hflt _ _ _ hlen2 hM3]
            · rw [if_neg hstrong, if_neg hstrong]
              have h1 : 9 * countFalse visited + rest.length ≤ f := by
                simp only [List.length_cons] at hM
                omega
              rw [IH f (by omega) rest visited contour hlen h1]

/-- C8: the stack-based region traversal terminates — any extra fuel
beyond `traceContour`'s default bound `9 · |visited| + 1` leaves the
result unchanged, so the while loop always exits within that bound —
and the returned contour contains at most 1000 points. -/
theorem traceContour_terminates_within_bound (data : List ℕ)
    (width height startX startY : ℤ) (visited : List Bool) (extra : ℕ)
    (hlen : visited.length = width.toNat * height.toNat) :
    traceContourFuel data width height (9 * visited.length + 1 + extra)
        [(startX, startY)] visited [] =
      traceContour data width height startX startY visited ∧
    (traceContour data width height startX startY visited).1.length ≤ 1000 := by
  constructor
  · rw [traceContour]
    have hcf : countFalse visited ≤ visited.length := countFalse_le_length visited
    have hM : 9 * countFalse visited + ([(startX, startY)] : List (ℤ × ℤ)).length ≤
        9 * visited.length + 1 := by
      simp only [List.length_cons, List.length_nil]
      omega
    rw [traceContourFuel_eq_of_le data width height (9 * visited.length + 1 + extra)
      _ _ _ hlen (by omega)]
    rw [traceContourFuel_eq_of_le data width height (9 * visited.length + 1)
      _ _ _ hlen hM]
  · exact traceContourFuel_length_le _ _ _ _ _ _ _ (by simp)

/-- Witness for `traceContour_terminates_within_bound` on a one-pixel
image with a strong edge pixel. -/
theorem traceContour_terminates_within_bound_witness :
    ([false] : List Bool).length = (1 : ℤ).toNat * (1 : ℤ).toNat ∧
    (traceContourFuel [200, 200, 200, 255] 1 1 (9 * ([false] : List Bool).length + 1 + 5)
        [(0, 0)] [false] [] =
      traceContour [200, 200, 200, 255] 1 1 0 0 [false] ∧
    (traceContour [200, 200, 200, 255] 1 1 0 0 [false]).1.length ≤ 1000) :=
  ⟨by decide,
    traceContour_terminates_within_bound [200, 200, 200, 255] 1 1 0 0 [false] 5 (by decide)⟩

/-- The `findContours` scan with the length filter applied at push time
equals the unfiltered scan followed by one final filter: both walks
share the same `visited` evolution, so they trace the same regions. -/
theorem findContours_scan_filter (data : List ℕ) (w h : ℕ) :
    ∀ (pixels : List (ℕ × ℕ)) (v : List Bool) (cs : List (List (ℤ × ℤ))),
      pixels.foldl (findContoursStep data w h)
          (v, cs.filter fun c => 20 < c.length) =
        ((pixels.foldl (findContoursAllStep data w h) (v, cs)).1,
         (pixels.foldl (findContoursAllStep data w h) (v, cs)).2.filter
           fun c => 20 < c.length) := by
  intro pixels
  induction pixels with
  | nil => intro v cs; simp
  | cons p rest ih =>
    intro v cs
    simp only [List.foldl_cons]
    have hstep : findContoursStep data w h (v, cs.filter fun c => 20 < c.length) p =
        ((findContoursAllStep data w h (v, cs) p).1,
         (findContoursAllStep data w h (v, cs) p).2.filter fun c => 20 < c.length) := by
      simp only [findContoursStep, findContoursAllStep]
      by_cases hcond : ¬ v.getD (p.2 * w + p.1) false ∧
          128 < pixByte data ((p.2 * w + p.1) * 4)
      · rw [if_pos hcond, if_pos hcond]
        by_cases h20 :
            20 < (traceContour data (↑w) (↑h) (↑p.1) (↑p.2) v).1.length
        · simp [h20, List.filter_append]
        · simp [h20, List.filter_append]
      · rw [if_neg hcond, if_neg hcond]
    rw [hstep]
    have := ih (findContoursAllStep data w h (v, cs) p).1
      (findContoursAllStep data w h (v, cs) p).2
    simpa using this

/-- C5 (amended): `findContours` returns exactly the traced connected
strong-edge regions with MORE than 20 points: a traced region with at
most 20 points (including one with exactly 20) is discarded. -/
theorem findContours_filters_short_regions (edge : ImageData) :
    findContours edge =
      (findContoursUnfiltered edge).filter fun c => 20 < c.length := by
  unfold findContours findContoursUnfiltered
  have h := findContours_scan_filter edge.data edge.width edge.height
    (pixelScanOrder edge.width edge.height)
    (List.replicate (edge.width * edge.height) false) []
  simp only [List.filter_nil] at h
  rw [h]

/-- A 22 × 1 edge image whose strong pixels form one 8-connected
region of exactly 20 points (pixels x = 1..20). -/
def lineEdgeImage : ImageData :=
  ⟨22, 1, List.ofFn (n := 88) fun i =>
    if (i : ℕ) % 4 = 3 then 255
    else if 1 ≤ (i : ℕ) / 4 ∧ (i : ℕ) / 4 ≤ 20 then 255 else 0⟩

set_option maxRecDepth 100000 in
/-- C5 counterexample: the traced connected strong-edge region of
`lineEdgeImage` contains exactly 20 points, yet `findContours` returns
no contour at all — a region with at least 20 points is NOT always
included (the code keeps only strictly more than 20). -/
theorem findContours_drops_20_point_region :
    findContours lineEdgeImage = [] ∧
    (traceContour lineEdgeImage.data 22 1 1 0 (List.replicate 22 false)).1.length = 20 := by
  constructor
  · decide
  · decide
